import Mathlib

/-!
Verification of microbit-dal: I2C retry wrapper, radio event relay, multi-button.

Shallow embedding of `source/MicroBitI2C.cpp`,
`source/ble-services/MicroBitRadioEvent.cpp` and of the class declared in
`inc/MicroBitMultiButton.h`, followed by the properties proved about them.
-/

/-! ## MicroBitI2C (source/MicroBitI2C.cpp) -/

/-- Constants used by `MicroBitI2C.cpp` whose `#define`s live in headers that are
not part of the sources at hand; they are taken as parameters. -/
structure I2CConstants where
  MICROBIT_I2C_MAX_RETRIES : Nat
  MICROBIT_OK : Int
  MICROBIT_I2C_ERROR : Int
  deriving Repr, DecidableEq

/-- The only member of `MicroBitI2C` that the two methods touch: the `retries`
counter, set to `0` by the constructor and kept across calls. -/
structure MicroBitI2C where
  retries : Nat
  deriving Repr, DecidableEq

/-- What one call of `read`/`write` produces: the returned `int`, the object
afterwards, and how many underlying `I2C::read`/`I2C::write` transactions ran. -/
structure I2COutcome where
  value : Int
  self : MicroBitI2C
  transactions : Nat
  deriving Repr, DecidableEq

namespace MicroBitI2C

/-- Constructor: `this->retries = 0`. -/
def init : MicroBitI2C := ⟨0⟩

/-- The loop `while(result != 0 && retries < MICROBIT_I2C_MAX_RETRIES)`.
`bus k` is the value returned by the `k`-th underlying transaction of the call
(`k = 0` is the attempt made before the loop); `attempts` counts the
transactions already made.  The body resets the peripheral (registers are not
modelled), repeats the transaction and increments `retries`. -/
def retryLoop (maxRetries : Nat) (bus : Nat → Int)
    (result : Int) (retries attempts : Nat) : Int × Nat × Nat :=
  if result ≠ 0 ∧ retries < maxRetries then
    retryLoop maxRetries bus (bus attempts) (retries + 1) (attempts + 1)
  else
    (result, retries, attempts)
termination_by maxRetries - retries
decreasing_by omega

/-- Method `int MicroBitI2C::read(int address, char *data, int length, bool repeated)`.
The arguments are handed unchanged to every underlying `I2C::read`, whose
results are the stream `bus`. -/
def read (c : I2CConstants) (bus : Nat → Int) (self : MicroBitI2C) : I2COutcome :=
  let result := bus 0
  let loop := retryLoop c.MICROBIT_I2C_MAX_RETRIES bus result self.retries 1
  if loop.1 ≠ 0 then
    ⟨c.MICROBIT_I2C_ERROR, ⟨loop.2.1⟩, loop.2.2⟩
  else
    ⟨c.MICROBIT_OK, ⟨0⟩, loop.2.2⟩

/-- Method `int MicroBitI2C::write(int address, const char *data, int length, bool repeated)`.
Same shape as `read`, over the results of the underlying `I2C::write`. -/
def write (c : I2CConstants) (bus : Nat → Int) (self : MicroBitI2C) : I2COutcome :=
  let result := bus 0
  let loop := retryLoop c.MICROBIT_I2C_MAX_RETRIES bus result self.retries 1
  if loop.1 ≠ 0 then
    ⟨c.MICROBIT_I2C_ERROR, ⟨loop.2.1⟩, loop.2.2⟩
  else
    ⟨c.MICROBIT_OK, ⟨0⟩, loop.2.2⟩

end MicroBitI2C

/-! ## MicroBitRadioEvent (source/ble-services/MicroBitRadioEvent.cpp) -/

/-- Constants used by `MicroBitRadioEvent.cpp` whose `#define`s live in
`MicroBitRadio.h`, which is not part of the sources at hand; parameters. -/
structure RadioConstants where
  MICROBIT_RADIO_HEADER_SIZE : Nat
  MICROBIT_RADIO_PROTOCOL_EVENTBUS : Nat
  deriving Repr, DecidableEq

/-- The fields of `FrameBuffer` that `eventReceived` assigns; `payload` is the
byte array of the frame. -/
structure FrameBuffer where
  length : Nat
  version : Nat
  group : Nat
  protocol : Nat
  payload : List Nat
  deriving Repr, DecidableEq

/-- Object representation of the event type, whose declaration is not part of
the sources at hand and is therefore a parameter: `sizeof` is
`sizeof(MicroBitEvent)`, `bytes e` are the bytes `memcpy` reads from `&e`, and
`view bs` is the object seen through a `(MicroBitEvent *)` cast of an array
starting with the bytes `bs`. -/
structure EventLayout (ε : Type) where
  sizeof : Nat
  bytes : ε → List Nat
  view : List Nat → ε

/-- The member of `MicroBitRadioEvent`. -/
structure MicroBitRadioEvent where
  suppressForwarding : Bool
  deriving Repr, DecidableEq

/-- The call `memcpy(dst, src, n)`: the first `n` bytes of `dst` are replaced by the
first `n` bytes of `src`, the remaining bytes of `dst` are untouched. -/
def memcpy (dst src : List Nat) (n : Nat) : List Nat :=
  src.take n ++ dst.drop n

namespace MicroBitRadioEvent

/-- Constructor: `suppressForwarding = false`. -/
def init : MicroBitRadioEvent := ⟨false⟩

/-- Method `void MicroBitRadioEvent::eventReceived(MicroBitEvent e)`.  `buf` is the
content of the local `FrameBuffer buf` before the assignments (it is not
initialised by the code).  The result is the object afterwards and the frames
handed to `uBit.radio.send`.  `sizeof(MicroBitEvent)` is at least `1`, so the
subtraction in `length` does not go below zero. -/
def eventReceived {ε : Type} (k : RadioConstants) (L : EventLayout ε)
    (self : MicroBitRadioEvent) (e : ε) (buf : FrameBuffer) :
    MicroBitRadioEvent × List FrameBuffer :=
  if self.suppressForwarding then
    (self, [])
  else
    let buf := { buf with length := L.sizeof + k.MICROBIT_RADIO_HEADER_SIZE - 1 }
    let buf := { buf with version := 1 }
    let buf := { buf with group := 0 }
    let buf := { buf with protocol := k.MICROBIT_RADIO_PROTOCOL_EVENTBUS }
    let buf := { buf with payload := memcpy buf.payload (L.bytes e) L.sizeof }
    (self, [buf])

/-- Modelled from the spec: `MicroBitEvent::fire` and the MessageBus are not part
of the sources at hand.  The bus delivers a published event synchronously to the
current listeners (§6); `listen` registers `eventReceived` as an immediate
listener, so while an event is being fired the bus may call `eventReceived` of
this very object, once for each event of `delivered` (the fired event when it
matches a registration, and whatever other listeners raise meanwhile), each call
with its own uninitialised local frame.  Returns the object afterwards and the
frames sent by those calls. -/
def fire {ε : Type} (k : RadioConstants) (L : EventLayout ε)
    (self : MicroBitRadioEvent) (delivered : List (ε × FrameBuffer)) :
    MicroBitRadioEvent × List FrameBuffer :=
  delivered.foldl
    (fun acc d =>
      let r := eventReceived k L acc.1 d.1 d.2
      (r.1, acc.2 ++ r.2))
    (self, [])

/-- Result of `packetReceived`: the object afterwards, the events fired onto the
local MessageBus, and the frames sent on the radio meanwhile. -/
structure Received (ε : Type) where
  self : MicroBitRadioEvent
  fired : List ε
  sent : List FrameBuffer

/-- Method `void MicroBitRadioEvent::packetReceived()`.  `p` is the frame returned by
`uBit.radio.recv()`; `e` is its payload seen through the `(MicroBitEvent *)`
cast. -/
def packetReceived {ε : Type} (k : RadioConstants) (L : EventLayout ε)
    (self : MicroBitRadioEvent) (p : FrameBuffer)
    (delivered : ε → List (ε × FrameBuffer)) : Received ε :=
  let e := L.view (p.payload.take L.sizeof)
  let self := { self with suppressForwarding := true }
  let r := fire k L self (delivered e)
  let self := { r.1 with suppressForwarding := false }
  ⟨self, [e], r.2⟩

end MicroBitRadioEvent

/-- A concrete layout used to exercise the relay: an event of two 16-bit fields
laid out little-endian in four bytes. -/
def layout16 : EventLayout (Fin 65536 × Fin 65536) where
  sizeof := 4
  bytes := fun e => [e.1.val % 256, e.1.val / 256, e.2.val % 256, e.2.val / 256]
  view := fun bs =>
    (Fin.ofNat (bs.getD 0 0 % 256 + 256 * (bs.getD 1 0 % 256)),
     Fin.ofNat (bs.getD 2 0 % 256 + 256 * (bs.getD 3 0 % 256)))

/-! ## MicroBitMultiButton (inc/MicroBitMultiButton.h)

The header declares the class and its status flags; the member functions are
defined in a source file that is not at hand, so their bodies follow the
specification (§3, §4.1). -/

def MICROBIT_MULTI_BUTTON_STATE_1 : Nat := 0x01
def MICROBIT_MULTI_BUTTON_STATE_2 : Nat := 0x02
def MICROBIT_MULTI_BUTTON_HOLD_TRIGGERED_1 : Nat := 0x04
def MICROBIT_MULTI_BUTTON_HOLD_TRIGGERED_2 : Nat := 0x08
def MICROBIT_MULTI_BUTTON_SUPRESSED_1 : Nat := 0x10
def MICROBIT_MULTI_BUTTON_SUPRESSED_2 : Nat := 0x20
def MICROBIT_MULTI_BUTTON_ATTACHED : Nat := 0x40

/-- Modelled from the spec: the event values `MICROBIT_BUTTON_EVT_*` named in the
header's comments and in §6; their numeric `#define`s are not at hand, only that
they are distinct values is used. -/
inductive ButtonEvt where
  | MICROBIT_BUTTON_EVT_DOWN
  | MICROBIT_BUTTON_EVT_UP
  | MICROBIT_BUTTON_EVT_CLICK
  | MICROBIT_BUTTON_EVT_LONG_CLICK
  | MICROBIT_BUTTON_EVT_HOLD
  | MICROBIT_BUTTON_EVT_DOUBLE_CLICK
  deriving Repr, DecidableEq

/-- Modelled from the spec: `MicroBitButtonEventConfiguration`, the enumeration
{ALL_EVENTS, SIMPLE_EVENTS} of §3 (the two legal values named in the header). -/
inductive MicroBitButtonEventConfiguration where
  | MICROBIT_BUTTON_ALL_EVENTS
  | MICROBIT_BUTTON_SIMPLE_EVENTS
  deriving Repr, DecidableEq

/-- Modelled from the spec: a notification on the bus, keyed by (source-id, value)
(§2). -/
structure MicroBitEvent where
  source : Nat
  value : ButtonEvt
  deriving Repr, DecidableEq

/-- The object: `id` and `status` (the flag bitset) come from the component base
class, `button1`, `button2`, `eventConfiguration` are the members declared in
the header.  `holdTriggered` is the composite-level "hold already triggered"
marker of §4.1 step 3 and `timerArmed` records whether the Hold Timer of §6 is
armed. -/
structure MicroBitMultiButton where
  id : Nat
  status : Nat
  button1 : Nat
  button2 : Nat
  eventConfiguration : MicroBitButtonEventConfiguration
  holdTriggered : Bool
  timerArmed : Bool
  deriving Repr, DecidableEq

/-- The statement `status |= flag`. -/
def setFlag (status flag : Nat) : Nat := status ||| flag

/-- The statement `status &= ~flag`, written without a complement so that it
does not depend on the width of `status`: the bits of `flag` that are set in
`status` are flipped. -/
def clearFlag (status flag : Nat) : Nat := status ^^^ (status &&& flag)

namespace MicroBitMultiButton

open ButtonEvt MicroBitButtonEventConfiguration

/-- Modelled from the spec: the constructor, whose body is not at hand.  All six
state flags are clear (§3) and the instance is registered with the bus
("registers as listener on construction"), which the `ATTACHED` flag records.
The initial event configuration is not stated by the spec and is a parameter. -/
def create (id button1 button2 : Nat) (config : MicroBitButtonEventConfiguration) :
    MicroBitMultiButton :=
  { id := id, status := MICROBIT_MULTI_BUTTON_ATTACHED, button1 := button1,
    button2 := button2, eventConfiguration := config, holdTriggered := false,
    timerArmed := false }

/-- Modelled from the spec: `otherSubButton`, declared in the header, body not at
hand: the constituent that is not `b`. -/
def otherSubButton (m : MicroBitMultiButton) (b : Nat) : Nat :=
  if b = m.button1 then m.button2 else m.button1

/-- Modelled from the spec: `isSubButtonPressed`, declared in the header, body not
at hand: the `PRESSED` flag of the constituent `button` (§3). -/
def isSubButtonPressed (m : MicroBitMultiButton) (button : Nat) : Nat :=
  if button = m.button1 then m.status &&& MICROBIT_MULTI_BUTTON_STATE_1
  else if button = m.button2 then m.status &&& MICROBIT_MULTI_BUTTON_STATE_2
  else 0

/-- Modelled from the spec: `isSubButtonHeld`, declared in the header, body not at
hand: the `HOLD_TRIGGERED` flag of the constituent `button` (§3). -/
def isSubButtonHeld (m : MicroBitMultiButton) (button : Nat) : Nat :=
  if button = m.button1 then m.status &&& MICROBIT_MULTI_BUTTON_HOLD_TRIGGERED_1
  else if button = m.button2 then m.status &&& MICROBIT_MULTI_BUTTON_HOLD_TRIGGERED_2
  else 0

/-- Modelled from the spec: `isSubButtonSupressed`, declared in the header, body
not at hand: the `SUPPRESSED` flag of the constituent `button` (§3). -/
def isSubButtonSupressed (m : MicroBitMultiButton) (button : Nat) : Nat :=
  if button = m.button1 then m.status &&& MICROBIT_MULTI_BUTTON_SUPRESSED_1
  else if button = m.button2 then m.status &&& MICROBIT_MULTI_BUTTON_SUPRESSED_2
  else 0

/-- Sets (`value ≠ 0`) or clears (`value = 0`) the flag `flag1` when `button` is
the first constituent, `flag2` when it is the second, and does nothing for any
other identifier. -/
def setSubFlag (m : MicroBitMultiButton) (flag1 flag2 : Nat) (button : Nat) (value : Nat) :
    MicroBitMultiButton :=
  if button = m.button1 then
    { m with status := if value ≠ 0 then setFlag m.status flag1 else clearFlag m.status flag1 }
  else if button = m.button2 then
    { m with status := if value ≠ 0 then setFlag m.status flag2 else clearFlag m.status flag2 }
  else m

/-- Modelled from the spec: `setButtonState`, declared in the header, body not at
hand: updates the `PRESSED` flag of the constituent (§4.1 step 1). -/
def setButtonState (m : MicroBitMultiButton) (button : Nat) (value : Nat) : MicroBitMultiButton :=
  setSubFlag m MICROBIT_MULTI_BUTTON_STATE_1 MICROBIT_MULTI_BUTTON_STATE_2 button value

/-- Modelled from the spec: `setHoldState`, declared in the header, body not at
hand: updates the `HOLD_TRIGGERED` flag of the constituent (§4.1 step 1). -/
def setHoldState (m : MicroBitMultiButton) (button : Nat) (value : Nat) : MicroBitMultiButton :=
  setSubFlag m MICROBIT_MULTI_BUTTON_HOLD_TRIGGERED_1 MICROBIT_MULTI_BUTTON_HOLD_TRIGGERED_2
    button value

/-- Modelled from the spec: `setSupressedState`, declared in the header, body not
at hand: updates the `SUPPRESSED` flag of the constituent (§4.1 steps 2, 4). -/
def setSupressedState (m : MicroBitMultiButton) (button : Nat) (value : Nat) :
    MicroBitMultiButton :=
  setSubFlag m MICROBIT_MULTI_BUTTON_SUPRESSED_1 MICROBIT_MULTI_BUTTON_SUPRESSED_2 button value

/-- Modelled from the spec: `isPressed`, declared in the header, body not at hand:
"true iff both constituents are currently pressed (`PRESSED_A ∧ PRESSED_B`)",
"@return 1 if both physical buttons are pressed simultaneously".  It reads the
object and returns an `int`; the object is not part of the result because the
spec gives it no side effect. -/
def isPressed (m : MicroBitMultiButton) : Nat :=
  if m.status &&& MICROBIT_MULTI_BUTTON_STATE_1 ≠ 0 ∧
     m.status &&& MICROBIT_MULTI_BUTTON_STATE_2 ≠ 0 then 1 else 0

/-- Modelled from the spec: `setEventConfiguration`, declared in the header, body
not at hand: "replaces `eventConfiguration`" (§4.1). -/
def setEventConfiguration (m : MicroBitMultiButton)
    (config : MicroBitButtonEventConfiguration) : MicroBitMultiButton :=
  { m with eventConfiguration := config }

/-- Modelled from the spec: `onButtonEvent`, declared in the header, body not at
hand; the internal event handler of §4.1.  Returns the object afterwards and the
events published on the bus, in order.
* An identifier that is neither constituent is ignored (failure semantics).
* Step 1: the `PRESSED` flag follows the notification; on UP the matching
  `HOLD_TRIGGERED` flag is cleared.
* Step 2, transition to both-pressed: publish composite DOWN, set both
  `SUPPRESSED` flags, arm the Hold Timer.
* Step 4, transition out of both-pressed: cancel the Hold Timer, publish
  composite UP, and under ALL_EVENTS publish CLICK when the hold marker was not
  set or LONG_CLICK when it was; clear both `SUPPRESSED` flags.  The hold marker
  belongs to the gesture that ends here and is cleared with it.
* The handler is registered for DOWN and UP only; other values change nothing.
Forwarding of the constituents' own notifications to their direct listeners
(steps 5, 6) is done by the bus and is not part of the result. -/
def onButtonEvent (m : MicroBitMultiButton) (evt : MicroBitEvent) :
    MicroBitMultiButton × List MicroBitEvent :=
  if evt.source ≠ m.button1 ∧ evt.source ≠ m.button2 then (m, [])
  else
    let wasPressed := m.isPressed
    match evt.value with
    | MICROBIT_BUTTON_EVT_DOWN =>
      let m1 := m.setButtonState evt.source 1
      if wasPressed = 0 ∧ m1.isPressed ≠ 0 then
        let m2 := (m1.setSupressedState m1.button1 1).setSupressedState m1.button2 1
        ({ m2 with timerArmed := true }, [⟨m.id, MICROBIT_BUTTON_EVT_DOWN⟩])
      else (m1, [])
    | MICROBIT_BUTTON_EVT_UP =>
      let m1 := (m.setButtonState evt.source 0).setHoldState evt.source 0
      if wasPressed ≠ 0 ∧ m1.isPressed = 0 then
        let clicks : List MicroBitEvent :=
          match m1.eventConfiguration with
          | MICROBIT_BUTTON_ALL_EVENTS =>
            [⟨m.id, if m1.holdTriggered then MICROBIT_BUTTON_EVT_LONG_CLICK
                    else MICROBIT_BUTTON_EVT_CLICK⟩]
          | MICROBIT_BUTTON_SIMPLE_EVENTS => []
        let m2 := (m1.setSupressedState m1.button1 0).setSupressedState m1.button2 0
        ({ m2 with timerArmed := false, holdTriggered := false },
          ⟨m.id, MICROBIT_BUTTON_EVT_UP⟩ :: clicks)
      else (m1, [])
    | _ => (m, [])

/-- Modelled from the spec: the callback of the Hold Timer (§4.1 step 3, §5).  If
the timer is armed and both constituents are still pressed it publishes
composite HOLD and sets the hold marker; the timer is single-shot.  A callback
that arrives when the timer is not armed (cancelled, or never armed) is a
no-op.  Step 3 does not mention the event configuration, and §3 and §8 of the
spec differ on whether HOLD is published under SIMPLE_EVENTS; the definition
follows step 3 as written, and nothing below depends on that choice. -/
def onHoldTimer (m : MicroBitMultiButton) : MicroBitMultiButton × List MicroBitEvent :=
  if m.timerArmed = true ∧ m.isPressed ≠ 0 then
    ({ m with holdTriggered := true, timerArmed := false },
      [⟨m.id, MICROBIT_BUTTON_EVT_HOLD⟩])
  else (m, [])

end MicroBitMultiButton

/-- What can happen to a composite button: the bus calls its handler with a
notification, or its Hold Timer fires. -/
inductive Stimulus where
  | notify (evt : MicroBitEvent)
  | holdTimer
  deriving Repr, DecidableEq

namespace MicroBitMultiButton

/-- One stimulus applied to the object. -/
def step (m : MicroBitMultiButton) : Stimulus → MicroBitMultiButton × List MicroBitEvent
  | .notify evt => m.onButtonEvent evt
  | .holdTimer => m.onHoldTimer

/-- A sequence of stimuli applied in order: the object afterwards and everything
published, in order. -/
def run (m : MicroBitMultiButton) : List Stimulus → MicroBitMultiButton × List MicroBitEvent
  | [] => (m, [])
  | s :: rest =>
    let r := m.step s
    let r2 := run r.1 rest
    (r2.1, r.2 ++ r2.2)

end MicroBitMultiButton

/-! ### Vocabulary of the claims about the composite button -/

/-- One of the two constituent buttons. -/
inductive Constituent where
  | first
  | second
  deriving Repr, DecidableEq

/-- A DOWN (`down = true`) or UP (`down = false`) notification of a constituent. -/
structure Notification where
  button : Constituent
  down : Bool
  deriving Repr, DecidableEq

/-- The bus event of a notification, for a composite button over `button1` and
`button2`. -/
def Notification.toEvent (button1 button2 : Nat) (n : Notification) : MicroBitEvent :=
  { source := match n.button with
      | .first => button1
      | .second => button2,
    value := if n.down then ButtonEvt.MICROBIT_BUTTON_EVT_DOWN
             else ButtonEvt.MICROBIT_BUTTON_EVT_UP }

/-- The stimuli of a sequence of notifications. -/
def stimuli (button1 button2 : Nat) (ns : List Notification) : List Stimulus :=
  ns.map (fun n => Stimulus.notify (n.toEvent button1 button2))

/-- The most recent notification of constituent `c` in `ns` was DOWN (false when
`c` was never notified: a fresh button is released). -/
def lastWasDown (c : Constituent) (ns : List Notification) : Bool :=
  match ns.reverse.find? (fun n => n.button = c) with
  | some n => n.down
  | none => false

/-- Both constituents are pressed after the notifications `ns`. -/
def bothDown (ns : List Notification) : Bool :=
  lastWasDown .first ns && lastWasDown .second ns

/-- The flag word of a registered composite button whose first constituent is
pressed iff `a` and whose second is pressed iff `b`, with both `SUPPRESSED` flags
set exactly when both are pressed and no `HOLD_TRIGGERED` flag set. -/
def reachableStatus (a b : Bool) : Nat :=
  MICROBIT_MULTI_BUTTON_ATTACHED
    ||| (if a then MICROBIT_MULTI_BUTTON_STATE_1 else 0)
    ||| (if b then MICROBIT_MULTI_BUTTON_STATE_2 else 0)
    ||| (if a && b then MICROBIT_MULTI_BUTTON_SUPRESSED_1 ||| MICROBIT_MULTI_BUTTON_SUPRESSED_2
         else 0)

/-- How many times the value `v` was published under the identifier `id`. -/
def published (id : Nat) (v : ButtonEvt) (out : List MicroBitEvent) : Nat :=
  out.count ⟨id, v⟩

/-! ### Lemmas on the retry loop -/

namespace MicroBitI2C

/-- Facts about the exit state of the retry loop, for an entry state in which
`result` is what transaction `attempts - 1` returned. -/
theorem retryLoop_spec (maxRetries : Nat) (bus : Nat → Int)
    (result : Int) (retries attempts : Nat)
    (hres : result = bus (attempts - 1)) (hpos : 1 ≤ attempts) :
    let out := retryLoop maxRetries bus result retries attempts
    out.1 = bus (out.2.2 - 1) ∧
    attempts ≤ out.2.2 ∧
    out.2.2 - attempts ≤ maxRetries - retries ∧
    out.2.1 = retries + (out.2.2 - attempts) ∧
    (out.1 ≠ 0 → maxRetries ≤ out.2.1 ∨ maxRetries ≤ retries) ∧
    (∀ k, attempts ≤ k → k < out.2.2 → bus (k - 1) ≠ 0) ∧
    (out.1 ≠ 0 → ∀ k, attempts ≤ k → k ≤ attempts + (maxRetries - retries) →
      bus (k - 1) ≠ 0) := by
  induction result, retries, attempts using retryLoop.induct maxRetries bus with
  | case1 result retries attempts hc ih =>
    have ih := ih (by simp) (by omega)
    rw [retryLoop, if_pos hc]
    simp only at ih ⊢
    obtain ⟨h1, h2, h3, h4, h5, h6, h7⟩ := ih
    refine ⟨h1, by omega, by omega, by omega, ?_, ?_, ?_⟩
    · intro h; have := h5 h; omega
    · intro k hk1 hk2
      rcases Nat.eq_or_lt_of_le hk1 with h | h
      · subst h; rw [← hres]; exact hc.1
      · exact h6 k (by omega) hk2
    · intro hne k hk1 hk2
      rcases Nat.eq_or_lt_of_le hk1 with h | h
      · subst h; rw [← hres]; exact hc.1
      · exact h7 hne k (by omega) (by omega)
  | case2 result retries attempts hc =>
    rw [retryLoop, if_neg hc]
    simp only
    refine ⟨hres, le_refl _, by omega, by omega, ?_, ?_, ?_⟩
    · intro h
      right
      by_contra hlt
      exact hc ⟨h, by omega⟩
    · intro k hk1 hk2; omega
    · intro hne k hk1 hk2
      have : ¬ retries < maxRetries := fun hlt => hc ⟨hne, hlt⟩
      have : k = attempts := by omega
      subst this; rw [← hres]; exact hne

end MicroBitI2C

namespace MicroBitI2C

/-- The two methods compute the same function of the constants, the stream of
transaction results and the object. -/
theorem write_eq_read (c : I2CConstants) (bus : Nat → Int) (self : MicroBitI2C) :
    write c bus self = read c bus self := rfl

/-- The value returned by `read` and the number of transactions, in terms of the
stream of transaction results. -/
theorem read_spec (c : I2CConstants) (bus : Nat → Int) (self : MicroBitI2C) :
    1 ≤ (read c bus self).transactions ∧
    (read c bus self).transactions ≤ 1 + (c.MICROBIT_I2C_MAX_RETRIES - self.retries) ∧
    ((bus ((read c bus self).transactions - 1) = 0 ∧
        (read c bus self).value = c.MICROBIT_OK) ∨
     (bus ((read c bus self).transactions - 1) ≠ 0 ∧
        (read c bus self).value = c.MICROBIT_I2C_ERROR)) ∧
    (bus ((read c bus self).transactions - 1) = 0 ↔
      ∃ k, k ≤ c.MICROBIT_I2C_MAX_RETRIES - self.retries ∧ bus k = 0) := by
  have hl := retryLoop_spec c.MICROBIT_I2C_MAX_RETRIES bus (bus 0) self.retries 1 rfl
    (le_refl 1)
  simp only at hl
  obtain ⟨h1, h2, h3, -, -, -, h7⟩ := hl
  have htr : (read c bus self).transactions =
      (retryLoop c.MICROBIT_I2C_MAX_RETRIES bus (bus 0) self.retries 1).2.2 := by
    unfold read; simp only; split <;> rfl
  have hval : (read c bus self).value =
      if (retryLoop c.MICROBIT_I2C_MAX_RETRIES bus (bus 0) self.retries 1).1 ≠ 0
      then c.MICROBIT_I2C_ERROR else c.MICROBIT_OK := by
    unfold read; simp only; split <;> rfl
  rw [htr, hval, ← h1]
  refine ⟨h2, by omega, ?_, ?_⟩
  · by_cases hz : (retryLoop c.MICROBIT_I2C_MAX_RETRIES bus (bus 0) self.retries 1).1 = 0
    · left; exact ⟨hz, by simp [hz]⟩
    · right; exact ⟨hz, by simp [hz]⟩
  · constructor
    · intro hz
      exact ⟨(retryLoop c.MICROBIT_I2C_MAX_RETRIES bus (bus 0) self.retries 1).2.2 - 1,
        by omega, by rw [← h1]; exact hz⟩
    · rintro ⟨k, hk, hz⟩
      by_contra hne
      exact h7 hne (k + 1) (by omega) (by omega) (by simpa using hz)

end MicroBitI2C

/-! ### Lemmas on the radio relay -/

/-- After `memcpy` of `n` bytes from a source that has them, the destination
starts with those bytes. -/
theorem memcpy_take (dst src : List Nat) (n : Nat) (h : src.length = n) :
    (memcpy dst src n).take n = src := by
  unfold memcpy
  rw [List.take_of_length_le (le_of_eq h)]
  exact List.take_left' h

namespace MicroBitRadioEvent

/-- While `suppressForwarding` is set, `eventReceived` returns at once. -/
theorem eventReceived_suppressed {ε : Type} (k : RadioConstants) (L : EventLayout ε)
    (self : MicroBitRadioEvent) (hs : self.suppressForwarding = true) (e : ε)
    (buf : FrameBuffer) : eventReceived k L self e buf = (self, []) := by
  simp [eventReceived, hs]

/-- Any number of deliveries to `eventReceived` while `suppressForwarding` is set
leave the object as it is and send nothing. -/
theorem fire_suppressed {ε : Type} (k : RadioConstants) (L : EventLayout ε)
    (self : MicroBitRadioEvent) (hs : self.suppressForwarding = true)
    (delivered : List (ε × FrameBuffer)) : fire k L self delivered = (self, []) := by
  unfold fire
  induction delivered with
  | nil => rfl
  | cons d ds ih =>
    rw [List.foldl_cons]
    simpa [eventReceived_suppressed k L self hs] using ih

end MicroBitRadioEvent

/-! ## Properties of the I2C retry wrapper -/

namespace MicroBitI2C

/-- C5: whatever the underlying transactions return, `read` (and likewise
`write`) returns `MICROBIT_OK` exactly when the last transaction it attempted
returned `0`, which is exactly when the first attempt or one of the
`MICROBIT_I2C_MAX_RETRIES - retries` retries it is allowed returns `0`; in
every other case it returns `MICROBIT_I2C_ERROR`, and it returns nothing else.
The two return codes are distinct constants. -/
theorem returns_ok_iff_last_transaction_succeeded (c : I2CConstants)
    (hcodes : c.MICROBIT_OK ≠ c.MICROBIT_I2C_ERROR) (bus : Nat → Int) (self : MicroBitI2C) :
    (1 ≤ (read c bus self).transactions ∧
     ((read c bus self).value = c.MICROBIT_OK ↔
        bus ((read c bus self).transactions - 1) = 0) ∧
     ((read c bus self).value = c.MICROBIT_OK ↔
        ∃ k, k ≤ c.MICROBIT_I2C_MAX_RETRIES - self.retries ∧ bus k = 0) ∧
     ((read c bus self).value ≠ c.MICROBIT_OK →
        (read c bus self).value = c.MICROBIT_I2C_ERROR)) ∧
    (1 ≤ (write c bus self).transactions ∧
     ((write c bus self).value = c.MICROBIT_OK ↔
        bus ((write c bus self).transactions - 1) = 0) ∧
     ((write c bus self).value = c.MICROBIT_OK ↔
        ∃ k, k ≤ c.MICROBIT_I2C_MAX_RETRIES - self.retries ∧ bus k = 0) ∧
     ((write c bus self).value ≠ c.MICROBIT_OK →
        (write c bus self).value = c.MICROBIT_I2C_ERROR)) := by
  rw [write_eq_read]
  obtain ⟨h1, -, h3, h4⟩ := read_spec c bus self
  have key : (read c bus self).value = c.MICROBIT_OK ↔
      bus ((read c bus self).transactions - 1) = 0 := by
    rcases h3 with ⟨hz, hv⟩ | ⟨hz, hv⟩
    · exact ⟨fun _ => hz, fun _ => hv⟩
    · constructor
      · intro hok
        exact absurd (hok.symm.trans hv) hcodes
      · intro h0
        exact absurd h0 hz
  have other : (read c bus self).value ≠ c.MICROBIT_OK →
      (read c bus self).value = c.MICROBIT_I2C_ERROR := by
    rcases h3 with ⟨-, hv⟩ | ⟨-, hv⟩
    · intro h; exact absurd hv h
    · intro _; exact hv
  exact ⟨⟨h1, key, key.trans h4, other⟩, ⟨h1, key, key.trans h4, other⟩⟩

/-- C5, at a concrete input: with at most 9 retries, a bus that fails twice and
then succeeds makes `read` return `MICROBIT_OK` (here `0`, the error code being
`-1010`). -/
theorem returns_ok_iff_last_transaction_succeeded_witness :
    (read ⟨9, 0, -1010⟩ (fun k => if k < 2 then 1 else 0) ⟨0⟩).value = 0 :=
  ((returns_ok_iff_last_transaction_succeeded ⟨9, 0, -1010⟩ (by decide)
      (fun k => if k < 2 then 1 else 0) ⟨0⟩).1.2.2.1).2 ⟨2, by decide, by decide⟩

/-- C6: the retry loop is bounded.  For every stream of transaction results (one
that fails forever included) and every entry value `r` of `retries`, a call of
`read` or of `write` returns after at least one and at most
`1 + (MICROBIT_I2C_MAX_RETRIES - r)` underlying transactions, hence at most
`1 + MICROBIT_I2C_MAX_RETRIES`.  (The functions are total: the loop is defined
by recursion on `MICROBIT_I2C_MAX_RETRIES - retries`.) -/
theorem retry_loop_bounded (c : I2CConstants) (bus : Nat → Int) (r : Nat) :
    (1 ≤ (read c bus ⟨r⟩).transactions ∧
     (read c bus ⟨r⟩).transactions ≤ 1 + (c.MICROBIT_I2C_MAX_RETRIES - r) ∧
     (read c bus ⟨r⟩).transactions ≤ 1 + c.MICROBIT_I2C_MAX_RETRIES) ∧
    (1 ≤ (write c bus ⟨r⟩).transactions ∧
     (write c bus ⟨r⟩).transactions ≤ 1 + (c.MICROBIT_I2C_MAX_RETRIES - r) ∧
     (write c bus ⟨r⟩).transactions ≤ 1 + c.MICROBIT_I2C_MAX_RETRIES) := by
  rw [write_eq_read]
  obtain ⟨h1, h2, -, -⟩ := read_spec c bus ⟨r⟩
  simp only at h2
  exact ⟨⟨h1, h2, by omega⟩, ⟨h1, h2, by omega⟩⟩

end MicroBitI2C

/-! ## Properties of the radio event relay -/

namespace MicroBitRadioEvent

/-- C7: round trip of the relay.  For an event type whose object representation
has `sizeof` bytes and is read back by the pointer cast, and for every event `e`:
when `suppressForwarding` is false, `eventReceived e` leaves the object as it is
and sends exactly one frame, with `length = sizeof(MicroBitEvent) +
MICROBIT_RADIO_HEADER_SIZE - 1`, `version = 1`, `group = 0`, `protocol =
MICROBIT_RADIO_PROTOCOL_EVENTBUS` and a payload that starts with the bytes of
`e`; and `packetReceived` on that frame fires exactly the event `e`, whatever the
state of the receiving relay. -/
theorem relay_round_trip {ε : Type} (k : RadioConstants) (L : EventLayout ε)
    (hsize : ∀ e, (L.bytes e).length = L.sizeof)
    (hcast : ∀ e, L.view (L.bytes e) = e)
    (self : MicroBitRadioEvent) (hfw : self.suppressForwarding = false)
    (e : ε) (buf : FrameBuffer) :
    ∃ f : FrameBuffer,
      eventReceived k L self e buf = (self, [f]) ∧
      f.length = L.sizeof + k.MICROBIT_RADIO_HEADER_SIZE - 1 ∧
      f.version = 1 ∧ f.group = 0 ∧
      f.protocol = k.MICROBIT_RADIO_PROTOCOL_EVENTBUS ∧
      f.payload.take L.sizeof = L.bytes e ∧
      ∀ (rx : MicroBitRadioEvent) (delivered : ε → List (ε × FrameBuffer)),
        (packetReceived k L rx f delivered).fired = [e] := by
  refine ⟨_, by simp only [eventReceived, hfw]; rfl, rfl, rfl, rfl, rfl, ?_, ?_⟩
  · exact memcpy_take _ _ _ (hsize e)
  · intro rx delivered
    simp only [packetReceived]
    rw [memcpy_take _ _ _ (hsize e), hcast]

/-- C7, at a concrete input: the event `(26, 1)` in the four-byte layout, relayed
through an uninitialised frame holding junk, is fired again as `(26, 1)`. -/
theorem relay_round_trip_witness :
    ∃ f : FrameBuffer,
      eventReceived ⟨4, 2⟩ layout16 ⟨false⟩ ((26, 1) : Fin 65536 × Fin 65536)
        ⟨7, 7, 7, 7, [9, 9, 9, 9, 9, 9]⟩ = (⟨false⟩, [f]) ∧
      f.length = layout16.sizeof + 4 - 1 ∧
      f.version = 1 ∧ f.group = 0 ∧ f.protocol = 2 ∧
      f.payload.take layout16.sizeof = layout16.bytes (26, 1) ∧
      ∀ (rx : MicroBitRadioEvent)
        (delivered : Fin 65536 × Fin 65536 → List ((Fin 65536 × Fin 65536) × FrameBuffer)),
        (packetReceived ⟨4, 2⟩ layout16 rx f delivered).fired = [(26, 1)] :=
  relay_round_trip ⟨4, 2⟩ layout16 (fun _ => rfl)
    (fun e => by
      obtain ⟨⟨a, ha⟩, ⟨b, hb⟩⟩ := e
      simp only [layout16, List.getD_cons_zero, List.getD_cons_succ, Fin.ofNat, Prod.mk.injEq,
        Fin.mk.injEq]
      omega)
    ⟨false⟩ rfl (26, 1) ⟨7, 7, 7, 7, [9, 9, 9, 9, 9, 9]⟩

/-- C8: no radio echo.  A call of `eventReceived` made while `suppressForwarding`
is set sends no packet and leaves the object as it is; so `packetReceived`,
during which the bus may call `eventReceived` any number of times, sends nothing;
and when `packetReceived` returns, `suppressForwarding` is false whatever it was
before, so that the next event raised locally is sent in exactly one frame. -/
theorem no_radio_echo {ε : Type} (k : RadioConstants) (L : EventLayout ε)
    (self : MicroBitRadioEvent) (hs : self.suppressForwarding = true)
    (e : ε) (buf : FrameBuffer)
    (rx : MicroBitRadioEvent) (p : FrameBuffer) (delivered : ε → List (ε × FrameBuffer)) :
    eventReceived k L self e buf = (self, []) ∧
    fire k L self (delivered e) = (self, []) ∧
    (packetReceived k L rx p delivered).sent = [] ∧
    (packetReceived k L rx p delivered).self.suppressForwarding = false ∧
    ∃ f, eventReceived k L (packetReceived k L rx p delivered).self e buf =
      ((packetReceived k L rx p delivered).self, [f]) := by
  have hsent : (packetReceived k L rx p delivered).sent = [] := by
    simp only [packetReceived]
    rw [fire_suppressed k L _ rfl]
  have hflag : (packetReceived k L rx p delivered).self.suppressForwarding = false := rfl
  refine ⟨eventReceived_suppressed k L self hs e buf, fire_suppressed k L self hs _,
    hsent, hflag, ?_⟩
  simp only [eventReceived, hflag]
  exact ⟨_, rfl⟩

/-- C8, at a concrete input: a relay that is firing a received event does not
send the event `(26, 1)` handed to it, and a relay that was suppressed before
`packetReceived` is not suppressed after it. -/
theorem no_radio_echo_witness :
    eventReceived ⟨4, 2⟩ layout16 ⟨true⟩ ((26, 1) : Fin 65536 × Fin 65536)
        ⟨7, 7, 7, 7, [9, 9, 9, 9, 9, 9]⟩ = (⟨true⟩, []) ∧
    (packetReceived ⟨4, 2⟩ layout16 ⟨true⟩ ⟨11, 1, 0, 2, [26, 0, 1, 0]⟩
        (fun e => [(e, ⟨0, 0, 0, 0, []⟩)])).self.suppressForwarding = false :=
  have h := no_radio_echo ⟨4, 2⟩ layout16 ⟨true⟩ rfl ((26, 1) : Fin 65536 × Fin 65536)
    ⟨7, 7, 7, 7, [9, 9, 9, 9, 9, 9]⟩ ⟨true⟩ ⟨11, 1, 0, 2, [26, 0, 1, 0]⟩
    (fun e => [(e, ⟨0, 0, 0, 0, []⟩)])
  ⟨h.1, h.2.2.2.1⟩

end MicroBitRadioEvent

/-! ## Lemmas on the composite button -/

theorem lastWasDown_append (c : Constituent) (ns : List Notification) (n : Notification) :
    lastWasDown c (ns ++ [n]) = if n.button = c then n.down else lastWasDown c ns := by
  unfold lastWasDown
  rw [List.reverse_append, List.reverse_singleton, List.singleton_append, List.find?_cons]
  by_cases h : n.button = c <;> simp [h]

theorem stimuli_append (button1 button2 : Nat) (ns : List Notification) (n : Notification) :
    stimuli button1 button2 (ns ++ [n]) =
      stimuli button1 button2 ns ++ [Stimulus.notify (n.toEvent button1 button2)] := by
  simp [stimuli]

namespace MicroBitMultiButton

open ButtonEvt MicroBitButtonEventConfiguration

theorem run_append (m : MicroBitMultiButton) (xs ys : List Stimulus) :
    run m (xs ++ ys) = ((run (run m xs).1 ys).1, (run m xs).2 ++ (run (run m xs).1 ys).2) := by
  induction xs generalizing m with
  | nil => simp [run]
  | cons x xs ih => simp [run, ih, List.append_assoc]

theorem run_singleton (m : MicroBitMultiButton) (s : Stimulus) : run m [s] = m.step s := by
  simp [run]

/-- The handler on a state whose flag word is `reachableStatus a b`: the flag word
follows the notification, and the composite DOWN and UP are published at the
transitions into and out of both-pressed only. -/
theorem onButtonEvent_reachable (i b1 b2 : Nat) (cfg : MicroBitButtonEventConfiguration)
    (ht ta : Bool) (h : b1 ≠ b2) (a b : Bool) (n : Notification) :
    ((onButtonEvent ⟨i, reachableStatus a b, b1, b2, cfg, ht, ta⟩ (n.toEvent b1 b2)).1.status =
        reachableStatus (if n.button = .first then n.down else a)
          (if n.button = .second then n.down else b) ∧
      (onButtonEvent ⟨i, reachableStatus a b, b1, b2, cfg, ht, ta⟩ (n.toEvent b1 b2)).1.id = i ∧
      (onButtonEvent ⟨i, reachableStatus a b, b1, b2, cfg, ht, ta⟩ (n.toEvent b1 b2)).1.button1
        = b1 ∧
      (onButtonEvent ⟨i, reachableStatus a b, b1, b2, cfg, ht, ta⟩ (n.toEvent b1 b2)).1.button2
        = b2 ∧
      (onButtonEvent ⟨i, reachableStatus a b, b1, b2, cfg, ht, ta⟩
        (n.toEvent b1 b2)).1.eventConfiguration = cfg) ∧
      (onButtonEvent ⟨i, reachableStatus a b, b1, b2, cfg, ht, ta⟩ (n.toEvent b1 b2)).2 =
        if (a && b) = false ∧
            ((if n.button = .first then n.down else a) &&
              (if n.button = .second then n.down else b)) = true then
          [⟨i, MICROBIT_BUTTON_EVT_DOWN⟩]
        else if (a && b) = true ∧
            ((if n.button = .first then n.down else a) &&
              (if n.button = .second then n.down else b)) = false then
          ⟨i, MICROBIT_BUTTON_EVT_UP⟩ ::
            (match cfg with
             | MICROBIT_BUTTON_ALL_EVENTS =>
               [⟨i, if ht then MICROBIT_BUTTON_EVT_LONG_CLICK else MICROBIT_BUTTON_EVT_CLICK⟩]
             | MICROBIT_BUTTON_SIMPLE_EVENTS => [])
        else [] := by
  have h2 : b2 ≠ b1 := Ne.symm h
  obtain ⟨c, d⟩ := n
  cases c <;> cases d <;> cases a <;> cases b <;>
    simp +decide [onButtonEvent, Notification.toEvent, setButtonState, setHoldState,
      setSupressedState, setSubFlag, isPressed, reachableStatus, setFlag, clearFlag, h, h2,
      MICROBIT_MULTI_BUTTON_ATTACHED, MICROBIT_MULTI_BUTTON_STATE_1,
      MICROBIT_MULTI_BUTTON_STATE_2, MICROBIT_MULTI_BUTTON_SUPRESSED_1,
      MICROBIT_MULTI_BUTTON_SUPRESSED_2, MICROBIT_MULTI_BUTTON_HOLD_TRIGGERED_1,
      MICROBIT_MULTI_BUTTON_HOLD_TRIGGERED_2]

/-- The same, for any object whose flag word is `reachableStatus a b` and whose
constituents have different identifiers. -/
theorem onButtonEvent_of_status (m : MicroBitMultiButton) (a b : Bool)
    (hst : m.status = reachableStatus a b) (h : m.button1 ≠ m.button2) (n : Notification) :
    ((m.onButtonEvent (n.toEvent m.button1 m.button2)).1.status =
        reachableStatus (if n.button = .first then n.down else a)
          (if n.button = .second then n.down else b) ∧
      (m.onButtonEvent (n.toEvent m.button1 m.button2)).1.id = m.id ∧
      (m.onButtonEvent (n.toEvent m.button1 m.button2)).1.button1 = m.button1 ∧
      (m.onButtonEvent (n.toEvent m.button1 m.button2)).1.button2 = m.button2 ∧
      (m.onButtonEvent (n.toEvent m.button1 m.button2)).1.eventConfiguration =
        m.eventConfiguration) ∧
      (m.onButtonEvent (n.toEvent m.button1 m.button2)).2 =
        if (a && b) = false ∧
            ((if n.button = .first then n.down else a) &&
              (if n.button = .second then n.down else b)) = true then
          [⟨m.id, MICROBIT_BUTTON_EVT_DOWN⟩]
        else if (a && b) = true ∧
            ((if n.button = .first then n.down else a) &&
              (if n.button = .second then n.down else b)) = false then
          ⟨m.id, MICROBIT_BUTTON_EVT_UP⟩ ::
            (match m.eventConfiguration with
             | MICROBIT_BUTTON_ALL_EVENTS =>
               [⟨m.id, if m.holdTriggered then MICROBIT_BUTTON_EVT_LONG_CLICK
                       else MICROBIT_BUTTON_EVT_CLICK⟩]
             | MICROBIT_BUTTON_SIMPLE_EVENTS => [])
        else [] := by
  obtain ⟨i, st, b1, b2, cfg, ht, ta⟩ := m
  simp only at hst h
  subst hst
  exact onButtonEvent_reachable i b1 b2 cfg ht ta h a b n

/-- The state reached from a fresh composite button by a sequence of
notifications of its constituents: the flag word records, for each constituent,
whether its most recent notification was DOWN, and the identifiers and the
configuration are those of construction. -/
theorem reachable_state (i b1 b2 : Nat) (cfg : MicroBitButtonEventConfiguration)
    (h : b1 ≠ b2) (ns : List Notification) :
    (run (create i b1 b2 cfg) (stimuli b1 b2 ns)).1.status =
        reachableStatus (lastWasDown .first ns) (lastWasDown .second ns) ∧
    (run (create i b1 b2 cfg) (stimuli b1 b2 ns)).1.id = i ∧
    (run (create i b1 b2 cfg) (stimuli b1 b2 ns)).1.button1 = b1 ∧
    (run (create i b1 b2 cfg) (stimuli b1 b2 ns)).1.button2 = b2 ∧
    (run (create i b1 b2 cfg) (stimuli b1 b2 ns)).1.eventConfiguration = cfg := by
  induction ns using List.reverseRecOn with
  | nil => exact ⟨rfl, rfl, rfl, rfl, rfl⟩
  | append_singleton ns n ih =>
    obtain ⟨hst, hid, hb1, hb2, hcfg⟩ := ih
    rw [stimuli_append, run_append, run_singleton]
    simp only [step]
    have hne : (run (create i b1 b2 cfg) (stimuli b1 b2 ns)).1.button1 ≠
        (run (create i b1 b2 cfg) (stimuli b1 b2 ns)).1.button2 := by
      rw [hb1, hb2]; exact h
    have key := onButtonEvent_of_status _ _ _ hst hne n
    rw [hb1, hb2, hid, hcfg] at key
    rw [lastWasDown_append, lastWasDown_append]
    exact key.1

/-- The flag word of a reachable state, read flag by flag. -/
theorem reachableStatus_flags (a b : Bool) :
    (reachableStatus a b &&& MICROBIT_MULTI_BUTTON_STATE_1 ≠ 0 ↔ a = true) ∧
    (reachableStatus a b &&& MICROBIT_MULTI_BUTTON_STATE_2 ≠ 0 ↔ b = true) ∧
    (reachableStatus a b &&& MICROBIT_MULTI_BUTTON_SUPRESSED_1 ≠ 0 ↔ (a = true ∧ b = true)) ∧
    (reachableStatus a b &&& MICROBIT_MULTI_BUTTON_SUPRESSED_2 ≠ 0 ↔ (a = true ∧ b = true)) ∧
    reachableStatus a b &&& MICROBIT_MULTI_BUTTON_HOLD_TRIGGERED_1 = 0 ∧
    reachableStatus a b &&& MICROBIT_MULTI_BUTTON_HOLD_TRIGGERED_2 = 0 ∧
    reachableStatus a b &&& MICROBIT_MULTI_BUTTON_ATTACHED ≠ 0 := by
  cases a <;> cases b <;> decide

/-- The method `isPressed` returns a non-zero value exactly when both `STATE`
flags are set. -/
theorem isPressed_ne_zero_iff (m : MicroBitMultiButton) :
    m.isPressed ≠ 0 ↔
      (m.status &&& MICROBIT_MULTI_BUTTON_STATE_1 ≠ 0 ∧
       m.status &&& MICROBIT_MULTI_BUTTON_STATE_2 ≠ 0) := by
  unfold isPressed
  split <;> simp_all

end MicroBitMultiButton

/-! ## Properties of the composite button -/

namespace MicroBitMultiButton

open ButtonEvt MicroBitButtonEventConfiguration

/-- C1: after any finite sequence of DOWN/UP notifications of the two constituents
delivered to `onButtonEvent` of a freshly constructed composite button (whose
constituents have different identifiers), `isPressed()` is non-zero if and only
if the most recent notification of each constituent was DOWN, that is, if and
only if both `MICROBIT_MULTI_BUTTON_STATE_1` and `MICROBIT_MULTI_BUTTON_STATE_2`
are set; it returns `1` or `0`.  `isPressed` is a function of the object alone
and yields no new object. -/
theorem isPressed_iff_both_last_down (i b1 b2 : Nat)
    (cfg : MicroBitButtonEventConfiguration) (h : b1 ≠ b2) (ns : List Notification) :
    ((run (create i b1 b2 cfg) (stimuli b1 b2 ns)).1.isPressed ≠ 0 ↔
      (lastWasDown .first ns = true ∧ lastWasDown .second ns = true)) ∧
    ((run (create i b1 b2 cfg) (stimuli b1 b2 ns)).1.isPressed ≠ 0 ↔
      ((run (create i b1 b2 cfg) (stimuli b1 b2 ns)).1.status &&&
          MICROBIT_MULTI_BUTTON_STATE_1 ≠ 0 ∧
       (run (create i b1 b2 cfg) (stimuli b1 b2 ns)).1.status &&&
          MICROBIT_MULTI_BUTTON_STATE_2 ≠ 0)) ∧
    ((run (create i b1 b2 cfg) (stimuli b1 b2 ns)).1.isPressed = 0 ∨
      (run (create i b1 b2 cfg) (stimuli b1 b2 ns)).1.isPressed = 1) := by
  obtain ⟨hst, -⟩ := reachable_state i b1 b2 cfg h ns
  obtain ⟨f1, f2, -⟩ :=
    reachableStatus_flags (lastWasDown .first ns) (lastWasDown .second ns)
  refine ⟨?_, isPressed_ne_zero_iff _, ?_⟩
  · rw [isPressed_ne_zero_iff, hst, f1, f2]
  · unfold isPressed
    split
    · right; rfl
    · left; rfl

/-- C1, at a concrete input: after DOWN(first), DOWN(second), UP(second),
DOWN(second) the composite button over the identifiers 1 and 2 is pressed. -/
theorem isPressed_iff_both_last_down_witness :
    (run (create 26 1 2 MICROBIT_BUTTON_ALL_EVENTS)
      (stimuli 1 2 [⟨.first, true⟩, ⟨.second, true⟩, ⟨.second, false⟩,
        ⟨.second, true⟩])).1.isPressed ≠ 0 :=
  (isPressed_iff_both_last_down 26 1 2 MICROBIT_BUTTON_ALL_EVENTS (by decide)
    [⟨.first, true⟩, ⟨.second, true⟩, ⟨.second, false⟩, ⟨.second, true⟩]).1.2
    ⟨by decide, by decide⟩

/-- C2: let a fresh composite button (constituents with different identifiers)
receive the notifications `ns` and then the notification `n`.  What the whole
sequence publishes is what `ns` publishes followed by what the handler publishes
at `n`; at `n` the handler publishes `MICROBIT_BUTTON_EVT_DOWN` under its own
identifier exactly once if `n` makes both constituents pressed (they were not
both pressed before and are after) and not at all otherwise; it publishes
`MICROBIT_BUTTON_EVT_UP` exactly once if `n` ends a both-pressed interval (both
were pressed before and are not after) and not at all otherwise; and everything
it publishes is under its own identifier. -/
theorem composite_down_up_once_per_interval (i b1 b2 : Nat)
    (cfg : MicroBitButtonEventConfiguration) (h : b1 ≠ b2)
    (ns : List Notification) (n : Notification) :
    (run (create i b1 b2 cfg) (stimuli b1 b2 (ns ++ [n]))).2 =
      (run (create i b1 b2 cfg) (stimuli b1 b2 ns)).2 ++
        ((run (create i b1 b2 cfg) (stimuli b1 b2 ns)).1.onButtonEvent (n.toEvent b1 b2)).2 ∧
    published i MICROBIT_BUTTON_EVT_DOWN
        ((run (create i b1 b2 cfg) (stimuli b1 b2 ns)).1.onButtonEvent (n.toEvent b1 b2)).2 =
      (if bothDown ns = false ∧ bothDown (ns ++ [n]) = true then 1 else 0) ∧
    published i MICROBIT_BUTTON_EVT_UP
        ((run (create i b1 b2 cfg) (stimuli b1 b2 ns)).1.onButtonEvent (n.toEvent b1 b2)).2 =
      (if bothDown ns = true ∧ bothDown (ns ++ [n]) = false then 1 else 0) ∧
    ∀ e ∈ ((run (create i b1 b2 cfg) (stimuli b1 b2 ns)).1.onButtonEvent
        (n.toEvent b1 b2)).2, e.source = i := by
  obtain ⟨hst, hid, hb1, hb2, hcfg⟩ := reachable_state i b1 b2 cfg h ns
  have hne : (run (create i b1 b2 cfg) (stimuli b1 b2 ns)).1.button1 ≠
      (run (create i b1 b2 cfg) (stimuli b1 b2 ns)).1.button2 := by
    rw [hb1, hb2]; exact h
  have key := (onButtonEvent_of_status _ _ _ hst hne n).2
  rw [hb1, hb2, hid, hcfg] at key
  refine ⟨?_, ?_⟩
  · rw [stimuli_append, run_append, run_singleton]
    rfl
  · rw [key]
    unfold bothDown
    rw [lastWasDown_append, lastWasDown_append]
    generalize (run (create i b1 b2 cfg) (stimuli b1 b2 ns)).1.holdTriggered = ht
    generalize lastWasDown Constituent.first ns = a
    generalize lastWasDown Constituent.second ns = b
    obtain ⟨c, d⟩ := n
    cases c <;> cases d <;> cases a <;> cases b <;> cases cfg <;> cases ht <;>
      simp +decide [published]

/-- C2, at a concrete input: the DOWN of the second constituent that follows the
DOWN of the first publishes the composite DOWN once; a repeated DOWN publishes
none. -/
theorem composite_down_up_once_per_interval_witness :
    published 26 MICROBIT_BUTTON_EVT_DOWN
        ((run (create 26 1 2 MICROBIT_BUTTON_ALL_EVENTS)
          (stimuli 1 2 [⟨.first, true⟩])).1.onButtonEvent
            (Notification.toEvent 1 2 ⟨.second, true⟩)).2 = 1 ∧
    published 26 MICROBIT_BUTTON_EVT_DOWN
        ((run (create 26 1 2 MICROBIT_BUTTON_ALL_EVENTS)
          (stimuli 1 2 [⟨.first, true⟩, ⟨.second, true⟩])).1.onButtonEvent
            (Notification.toEvent 1 2 ⟨.second, true⟩)).2 = 0 :=
  ⟨(composite_down_up_once_per_interval 26 1 2 MICROBIT_BUTTON_ALL_EVENTS (by decide)
      [⟨.first, true⟩] ⟨.second, true⟩).2.1.trans (by decide),
   (composite_down_up_once_per_interval 26 1 2 MICROBIT_BUTTON_ALL_EVENTS (by decide)
      [⟨.first, true⟩, ⟨.second, true⟩] ⟨.second, true⟩).2.1.trans (by decide)⟩

/-- C4: in every state reached from a fresh composite button (constituents with
different identifiers) by DOWN/UP notifications of the two constituents, a
`SUPRESSED` flag is set only if both `STATE_1` and `STATE_2` are set (and then
both `SUPRESSED` flags are set); and after an UP of either constituent received
while both were pressed, both `SUPRESSED` flags are clear. -/
theorem suppressed_only_while_both_pressed (i b1 b2 : Nat)
    (cfg : MicroBitButtonEventConfiguration) (h : b1 ≠ b2) (ns : List Notification) :
    (((run (create i b1 b2 cfg) (stimuli b1 b2 ns)).1.status &&&
          MICROBIT_MULTI_BUTTON_SUPRESSED_1 ≠ 0 ∨
      (run (create i b1 b2 cfg) (stimuli b1 b2 ns)).1.status &&&
          MICROBIT_MULTI_BUTTON_SUPRESSED_2 ≠ 0) →
      ((run (create i b1 b2 cfg) (stimuli b1 b2 ns)).1.status &&&
          MICROBIT_MULTI_BUTTON_STATE_1 ≠ 0 ∧
       (run (create i b1 b2 cfg) (stimuli b1 b2 ns)).1.status &&&
          MICROBIT_MULTI_BUTTON_STATE_2 ≠ 0)) ∧
    (((run (create i b1 b2 cfg) (stimuli b1 b2 ns)).1.status &&&
          MICROBIT_MULTI_BUTTON_STATE_1 ≠ 0 ∧
      (run (create i b1 b2 cfg) (stimuli b1 b2 ns)).1.status &&&
          MICROBIT_MULTI_BUTTON_STATE_2 ≠ 0) →
      ((run (create i b1 b2 cfg) (stimuli b1 b2 ns)).1.status &&&
          MICROBIT_MULTI_BUTTON_SUPRESSED_1 ≠ 0 ∧
       (run (create i b1 b2 cfg) (stimuli b1 b2 ns)).1.status &&&
          MICROBIT_MULTI_BUTTON_SUPRESSED_2 ≠ 0)) ∧
    (∀ n : Notification,
      (run (create i b1 b2 cfg) (stimuli b1 b2 ns)).1.isPressed ≠ 0 → n.down = false →
      ((run (create i b1 b2 cfg) (stimuli b1 b2 ns)).1.onButtonEvent
          (n.toEvent b1 b2)).1.status &&& MICROBIT_MULTI_BUTTON_SUPRESSED_1 = 0 ∧
      ((run (create i b1 b2 cfg) (stimuli b1 b2 ns)).1.onButtonEvent
          (n.toEvent b1 b2)).1.status &&& MICROBIT_MULTI_BUTTON_SUPRESSED_2 = 0) := by
  obtain ⟨hst, hid, hb1, hb2, hcfg⟩ := reachable_state i b1 b2 cfg h ns
  obtain ⟨f1, f2, f3, f4, -⟩ :=
    reachableStatus_flags (lastWasDown .first ns) (lastWasDown .second ns)
  refine ⟨?_, ?_, ?_⟩
  · rw [hst, f1, f2, f3, f4]
    rintro (hh | hh) <;> exact hh
  · rw [hst, f1, f2, f3, f4]
    exact fun hh => ⟨hh, hh⟩
  · intro n hp hup
    obtain ⟨c, d⟩ := n
    simp only at hup
    subst hup
    rw [isPressed_ne_zero_iff, hst, f1, f2] at hp
    have hne : (run (create i b1 b2 cfg) (stimuli b1 b2 ns)).1.button1 ≠
        (run (create i b1 b2 cfg) (stimuli b1 b2 ns)).1.button2 := by
      rw [hb1, hb2]; exact h
    have key := (onButtonEvent_of_status _ _ _ hst hne ⟨c, false⟩).1.1
    rw [hb1, hb2] at key
    rw [key, hp.1, hp.2]
    cases c <;> decide

/-- C4, at a concrete input: after DOWN(first), DOWN(second) both `SUPRESSED`
flags are set together with both `STATE` flags, and the UP of the first
constituent that follows clears both `SUPRESSED` flags. -/
theorem suppressed_only_while_both_pressed_witness :
    ((run (create 26 1 2 MICROBIT_BUTTON_ALL_EVENTS)
        (stimuli 1 2 [⟨.first, true⟩, ⟨.second, true⟩])).1.status &&&
          MICROBIT_MULTI_BUTTON_STATE_1 ≠ 0 ∧
      (run (create 26 1 2 MICROBIT_BUTTON_ALL_EVENTS)
        (stimuli 1 2 [⟨.first, true⟩, ⟨.second, true⟩])).1.status &&&
          MICROBIT_MULTI_BUTTON_STATE_2 ≠ 0) ∧
    ((run (create 26 1 2 MICROBIT_BUTTON_ALL_EVENTS)
        (stimuli 1 2 [⟨.first, true⟩, ⟨.second, true⟩])).1.onButtonEvent
          (Notification.toEvent 1 2 ⟨.first, false⟩)).1.status &&&
            MICROBIT_MULTI_BUTTON_SUPRESSED_1 = 0 :=
  ⟨(suppressed_only_while_both_pressed 26 1 2 MICROBIT_BUTTON_ALL_EVENTS (by decide)
      [⟨.first, true⟩, ⟨.second, true⟩]).1 (Or.inl (by decide)),
   ((suppressed_only_while_both_pressed 26 1 2 MICROBIT_BUTTON_ALL_EVENTS (by decide)
      [⟨.first, true⟩, ⟨.second, true⟩]).2.2 ⟨.first, false⟩ (by decide) rfl).1⟩

end MicroBitMultiButton
